import Mathlib

/-!
# Contact pairs of the arcade physics solver

A shallow embedding of `src/physics/arcade/pairs/Pair.js`: the cached state of one
contact between two colliders, the three solver passes (`preSolve`, `solveVelocity`,
`solvePosition`), the pair identifier and the process-wide solver settings.

Numbers are exact rationals.  The one operation of the file that is not defined on all
rationals is the division `1 / (invMassA + invMassB)` in `preSolve`; it is modelled by
`MathEx.div`, whose result is `none` at a zero denominator, and the field `mMass` holds
that optional value.  The passes that multiply by `mMass` have no rational result when
it is `none`.  `Pair.preSolveChecked` is the same method read with a division that ends
the call at a zero denominator.

Mutable objects become explicit state: a pass takes the pair (which holds its two
bodies) and returns the updated pair; the static fields of `Pair` are a `Settings`
record that is passed to the passes that read it.  The two bodies of a pair are
distinct objects.
-/

namespace Black

/-- Two-dimensional vector (`Vector` of the engine): the `x` and `y` fields. -/
structure Vector where
  x : ℚ
  y : ℚ
deriving DecidableEq

/-- The fields of `RigidBody` that `Pair` reads and writes. -/
structure RigidBody where
  mPosition : Vector
  mVelocity : Vector
  mInvMass : ℚ
  friction : ℚ
  bounce : ℚ
deriving DecidableEq

/-- The field of `Collider` that `Pair.__id` reads. -/
structure Collider where
  mId : ℕ
deriving DecidableEq

/-- The static fields of `Pair` written by `Pair.settings`. -/
structure Settings where
  slop : ℚ
  baumgarte : ℚ
  unitsPerMeter : ℚ
  bounceTrashhold : ℚ
deriving DecidableEq

/-- The instance fields of `Pair`, after `set` has stored the colliders and bodies.
`mMass` is optional: `none` is the value of `1 / 0`. -/
structure Pair where
  a : Collider
  b : Collider
  bodyA : RigidBody
  bodyB : RigidBody
  mInCollision : Bool
  mNormalImpulse : ℚ
  mTangentImpulse : ℚ
  mPositionImpulse : ℚ
  mFriction : ℚ
  mBias : ℚ
  mMass : Option ℚ
  mOffset : Vector
  mNormal : Vector
  mOverlap : ℚ
deriving DecidableEq

/-- Division as a partial operation: no result at a zero denominator. -/
def MathEx.div (n d : ℚ) : Option ℚ :=
  if d = 0 then none else some (n / d)

/-- Modelled from the spec: `MathEx.clamp(value, min, max)`, whose source file is not part
of the sources at hand; the standard clamp of a value to `[min, max]`. -/
def MathEx.clamp (value lo hi : ℚ) : ℚ :=
  if value < lo then lo else if value > hi then hi else value

/-- The constructor of `Pair` followed by `set(a, b, bodyA, bodyB)`: every cached number
is `0`, both vectors are the zero vector, the collision flag is `false`. -/
def Pair.new (a b : Collider) (bodyA bodyB : RigidBody) : Pair where
  a := a
  b := b
  bodyA := bodyA
  bodyB := bodyB
  mInCollision := false
  mNormalImpulse := 0
  mTangentImpulse := 0
  mPositionImpulse := 0
  mFriction := 0
  mBias := 0
  mMass := some 0
  mOffset := ⟨0, 0⟩
  mNormal := ⟨0, 0⟩
  mOverlap := 0

/-- The method `Pair.test`: returns the collision flag. -/
def Pair.test (p : Pair) : Bool :=
  p.mInCollision

/-- The static method `Pair.settings(unitsPerMeter = 1, baumgarte = 0.2, slop = 0.5)` as a
transformer of the static fields; an omitted argument is `none`. The previous values are
not read. -/
def Pair.settings (_old : Settings) (unitsPerMeter baumgarte slop : Option ℚ) : Settings :=
  let unitsPerMeter := unitsPerMeter.getD 1
  let baumgarte := baumgarte.getD (2 / 10)
  let slop := slop.getD (5 / 10)
  { slop := slop
    baumgarte := baumgarte
    unitsPerMeter := unitsPerMeter
    bounceTrashhold := unitsPerMeter }

/-- The static fields after the call `Pair.settings()` that ends the source file. -/
def Settings.initial : Settings :=
  Pair.settings ⟨0, 0, 0, 0⟩ none none none

/-- The method `Pair.preSolve`: warm start with the cached impulses, then the bias, the
effective mass, the combined friction and the reset of the position impulse. -/
def Pair.preSolve (S : Settings) (p : Pair) : Pair :=
  let normalX := p.mNormal.x
  let normalY := p.mNormal.y
  let tangentX := -normalY
  let tangentY := normalX
  let positionA := p.bodyA.mPosition
  let positionB := p.bodyB.mPosition
  let invMassA := p.bodyA.mInvMass
  let invMassB := p.bodyB.mInvMass
  let impulseX := p.mNormalImpulse * normalX + p.mTangentImpulse * tangentX
  let impulseY := p.mNormalImpulse * normalY + p.mTangentImpulse * tangentY
  let offset : Vector := ⟨positionB.x - positionA.x, positionB.y - positionA.y⟩
  let velocityA : Vector :=
    ⟨p.bodyA.mVelocity.x - impulseX * invMassA, p.bodyA.mVelocity.y - impulseY * invMassA⟩
  let velocityB : Vector :=
    ⟨p.bodyB.mVelocity.x + impulseX * invMassB, p.bodyB.mVelocity.y + impulseY * invMassB⟩
  let relVelX := velocityB.x - velocityA.x
  let relVelY := velocityB.y - velocityA.y
  let relVel := relVelX * normalX + relVelY * normalY
  { p with
    bodyA := { p.bodyA with mVelocity := velocityA }
    bodyB := { p.bodyB with mVelocity := velocityB }
    mOffset := offset
    mBias :=
      if relVel < -S.bounceTrashhold then (-(max p.bodyA.bounce p.bodyB.bounce)) * relVel else 0
    mMass := MathEx.div 1 (invMassA + invMassB)
    mFriction := min p.bodyA.friction p.bodyB.friction
    mPositionImpulse := 0 }

/-- The body of `Pair.solveVelocity` for a rational effective mass: the normal block, then
the tangent block, which reads the velocities and the normal impulse the normal block wrote. -/
def Pair.solveVelocityWith (mMass : ℚ) (p : Pair) : Pair :=
  let normalX := p.mNormal.x
  let normalY := p.mNormal.y
  let tangentX := -normalY
  let tangentY := normalX
  let invMassA := p.bodyA.mInvMass
  let invMassB := p.bodyB.mInvMass
  -- normal block
  let relVelX := p.bodyB.mVelocity.x - p.bodyA.mVelocity.x
  let relVelY := p.bodyB.mVelocity.y - p.bodyA.mVelocity.y
  let relVel := relVelX * normalX + relVelY * normalY
  let impulse := (-(relVel - p.mBias)) * mMass
  let newImpulse := max (p.mNormalImpulse + impulse) 0
  let impulse := newImpulse - p.mNormalImpulse
  let mNormalImpulse := newImpulse
  let impulseX := impulse * normalX
  let impulseY := impulse * normalY
  let velocityA : Vector :=
    ⟨p.bodyA.mVelocity.x - impulseX * invMassA, p.bodyA.mVelocity.y - impulseY * invMassA⟩
  let velocityB : Vector :=
    ⟨p.bodyB.mVelocity.x + impulseX * invMassB, p.bodyB.mVelocity.y + impulseY * invMassB⟩
  -- tangent block
  let relVelX := velocityB.x - velocityA.x
  let relVelY := velocityB.y - velocityA.y
  let relVel := relVelX * tangentX + relVelY * tangentY
  let impulse := (-relVel) * mMass
  let maxFriction := p.mFriction * mNormalImpulse
  let newImpulse := MathEx.clamp (p.mTangentImpulse + impulse) (-maxFriction) maxFriction
  let impulse := newImpulse - p.mTangentImpulse
  let mTangentImpulse := newImpulse
  let impulseX := impulse * tangentX
  let impulseY := impulse * tangentY
  let velocityA : Vector := ⟨velocityA.x - impulseX * invMassA, velocityA.y - impulseY * invMassA⟩
  let velocityB : Vector := ⟨velocityB.x + impulseX * invMassB, velocityB.y + impulseY * invMassB⟩
  { p with
    bodyA := { p.bodyA with mVelocity := velocityA }
    bodyB := { p.bodyB with mVelocity := velocityB }
    mNormalImpulse := mNormalImpulse
    mTangentImpulse := mTangentImpulse }

/-- The method `Pair.solveVelocity`. Its first statement that computes multiplies by
`mMass`, so there is a rational result exactly when `mMass` is a rational. -/
def Pair.solveVelocity (p : Pair) : Option Pair :=
  p.mMass.map fun mMass => p.solveVelocityWith mMass

/-- The method `Pair.solvePosition`. The early return on `correction <= 0` comes before
the multiplication by `mMass`. -/
def Pair.solvePosition (S : Settings) (p : Pair) : Option Pair :=
  let normalX := p.mNormal.x
  let normalY := p.mNormal.y
  let invMassA := p.bodyA.mInvMass
  let invMassB := p.bodyB.mInvMass
  let positionA := p.bodyA.mPosition
  let positionB := p.bodyB.mPosition
  let offset := p.mOffset
  let dx := offset.x - positionB.x + positionA.x
  let dy := offset.y - positionB.y + positionA.y
  let overlap := p.mOverlap + (dx * normalX + dy * normalY)
  let correction := (overlap - S.slop) * S.baumgarte
  if correction ≤ 0 then some p
  else
    p.mMass.map fun mMass =>
      let normalImpulse := correction * mMass
      let impulsePrev := p.mPositionImpulse
      let mPositionImpulse := max (impulsePrev + normalImpulse) 0
      let normalImpulse := mPositionImpulse - impulsePrev
      let impulseX := normalImpulse * normalX
      let impulseY := normalImpulse * normalY
      { p with
        bodyA := { p.bodyA with
          mPosition := ⟨positionA.x - impulseX * invMassA, positionA.y - impulseY * invMassA⟩ }
        bodyB := { p.bodyB with
          mPosition := ⟨positionB.x + impulseX * invMassB, positionB.y + impulseY * invMassB⟩ }
        mPositionImpulse := mPositionImpulse }

/-- Decimal text of a natural number in a template literal. -/
def numberToString (n : ℕ) : String :=
  toString n

/-- The static method `Pair.__id`: the larger identifier first, then `&`, then the other. -/
def Pair.__id (a b : Collider) : String :=
  if a.mId > b.mId then numberToString a.mId ++ "&" ++ numberToString b.mId
  else numberToString b.mId ++ "&" ++ numberToString a.mId

/-- The static fields together with one pair: the state the solver calls act on. -/
structure World where
  settings : Settings
  pair : Pair
deriving DecidableEq

/-- One event in the life of a pair: a call of one of the three passes, or a write from
outside the passes (the integrator or the scene writing the bodies, the narrow test
writing the contact geometry, a call of `Pair.settings`). -/
inductive Op where
  | preSolve
  | solveVelocity
  | solvePosition
  | setBodies (bodyA bodyB : RigidBody)
  | setContact (inCollision : Bool) (normal : Vector) (overlap : ℚ)
  | settings (unitsPerMeter baumgarte slop : Option ℚ)
deriving DecidableEq

/-- The effect of one event. -/
def Op.apply : Op → World → Option World
  | .preSolve, w => some { w with pair := w.pair.preSolve w.settings }
  | .solveVelocity, w => w.pair.solveVelocity.map fun p => { w with pair := p }
  | .solvePosition, w => (w.pair.solvePosition w.settings).map fun p => { w with pair := p }
  | .setBodies bodyA bodyB, w => some { w with pair := { w.pair with bodyA := bodyA, bodyB := bodyB } }
  | .setContact c n o, w =>
      some { w with pair := { w.pair with mInCollision := c, mNormal := n, mOverlap := o } }
  | .settings u b s, w => some { w with settings := Pair.settings w.settings u b s }

/-- The effect of a sequence of events, first to last. -/
def run : List Op → World → Option World
  | [], w => some w
  | op :: ops, w => (op.apply w).bind (run ops)

/-- Relative velocity of body B against body A along the contact normal. -/
def Pair.relNormalVel (p : Pair) : ℚ :=
  (p.bodyB.mVelocity.x - p.bodyA.mVelocity.x) * p.mNormal.x +
    (p.bodyB.mVelocity.y - p.bodyA.mVelocity.y) * p.mNormal.y

/-- Velocity of a body along the contact normal of the pair. -/
def Pair.normalVel (p : Pair) (body : RigidBody) : ℚ :=
  body.mVelocity.x * p.mNormal.x + body.mVelocity.y * p.mNormal.y

/-- Separation of the two bodies along the contact normal. -/
def Pair.separation (p : Pair) : ℚ :=
  (p.bodyB.mPosition.x - p.bodyA.mPosition.x) * p.mNormal.x +
    (p.bodyB.mPosition.y - p.bodyA.mPosition.y) * p.mNormal.y

/-- The contact normal has length one. -/
def Pair.UnitNormal (p : Pair) : Prop :=
  p.mNormal.x * p.mNormal.x + p.mNormal.y * p.mNormal.y = 1

instance (p : Pair) : Decidable p.UnitNormal :=
  inferInstanceAs (Decidable (_ = _))

/-- The result of `k` consecutive `solveVelocity` calls. -/
def Pair.solveVelocityIter : ℕ → Pair → Option Pair
  | 0, p => some p
  | k + 1, p => p.solveVelocity.bind (Pair.solveVelocityIter k)

/-- Both accumulated impulses that the passes clamp are non-negative. -/
def Pair.NonNeg (p : Pair) : Prop :=
  0 ≤ p.mNormalImpulse ∧ 0 ≤ p.mPositionImpulse

/-! ## Sample data -/

/-- A body at the origin that moves right at 10 units per second, inverse mass 1. -/
def Sample.bodyA : RigidBody := ⟨⟨0, 0⟩, ⟨10, 0⟩, 1, 0, 0⟩

/-- A body at rest at `x = 1`, inverse mass 1. -/
def Sample.bodyB : RigidBody := ⟨⟨1, 0⟩, ⟨0, 0⟩, 1, 0, 0⟩

/-- A fresh pair of the two sample bodies under the initial settings. -/
def Sample.world0 : World :=
  ⟨Settings.initial, Pair.new ⟨1⟩ ⟨2⟩ Sample.bodyA Sample.bodyB⟩

/-- The narrow test reports a contact along `(1, 0)` with overlap 1; then one call of each
pass. -/
def Sample.ops : List Op :=
  [.setContact true ⟨1, 0⟩ 1, .preSolve, .solveVelocity, .solvePosition]

/-- The state after `Sample.ops`. -/
def Sample.world1 : World where
  settings := ⟨1 / 2, 1 / 5, 1, 1⟩
  pair :=
    { a := ⟨1⟩
      b := ⟨2⟩
      bodyA := ⟨⟨-1 / 20, 0⟩, ⟨5, 0⟩, 1, 0, 0⟩
      bodyB := ⟨⟨21 / 20, 0⟩, ⟨5, 0⟩, 1, 0, 0⟩
      mInCollision := true
      mNormalImpulse := 5
      mTangentImpulse := 0
      mPositionImpulse := 1 / 20
      mFriction := 0
      mBias := 0
      mMass := some (1 / 2)
      mOffset := ⟨1, 0⟩
      mNormal := ⟨1, 0⟩
      mOverlap := 1 }

/-- A prepared pair with friction 1/2: body A moves right and up, body B is at rest. -/
def Sample.sliding : Pair :=
  { Pair.new ⟨1⟩ ⟨2⟩ ⟨⟨0, 0⟩, ⟨10, 8⟩, 1, 1 / 2, 0⟩ ⟨⟨1, 0⟩, ⟨0, 0⟩, 1, 1 / 2, 0⟩ with
    mInCollision := true
    mNormal := ⟨1, 0⟩
    mFriction := 1 / 2
    mMass := some (1 / 2) }

/-- The impulse cached from the previous step: normal part plus tangent part, with the
tangent `(-n.y, n.x)`. -/
def Pair.cachedImpulse (p : Pair) : Vector :=
  ⟨p.mNormalImpulse * p.mNormal.x + p.mTangentImpulse * (-p.mNormal.y),
    p.mNormalImpulse * p.mNormal.y + p.mTangentImpulse * p.mNormal.x⟩

/-- A pair at rest along the normal: no bias, a rational effective mass, a non-negative
normal impulse and no relative normal velocity. -/
def Pair.AtRest (p : Pair) : Prop :=
  p.mMass.isSome = true ∧ p.mBias = 0 ∧ 0 ≤ p.mNormalImpulse ∧ p.relNormalVel = 0

/-- The two sample bodies in contact along `(1, 0)`, no overlap, no cached impulse. -/
def Sample.contact : Pair :=
  { Pair.new ⟨1⟩ ⟨2⟩ Sample.bodyA Sample.bodyB with
    mInCollision := true
    mNormal := ⟨1, 0⟩ }

/-- The two sample bodies in contact along `(1, 0)` with overlap 1. -/
def Sample.overlapping : Pair :=
  { Sample.contact with mOverlap := 1 }

/-- Two bodies of inverse mass 0 in contact along `(1, 0)`. -/
def Sample.static : Pair :=
  { Pair.new ⟨1⟩ ⟨2⟩ ⟨⟨0, 0⟩, ⟨0, 0⟩, 0, 0, 0⟩ ⟨⟨1, 0⟩, ⟨0, 0⟩, 0, 0, 0⟩ with
    mInCollision := true
    mNormal := ⟨1, 0⟩
    mOverlap := 1 }

/-- The overlap that `solvePosition` recomputes from the current positions: the cached
overlap plus the change of the offset since `preSolve`, projected onto the normal. -/
def Pair.overlapNow (p : Pair) : ℚ :=
  p.mOverlap +
    ((p.mOffset.x - p.bodyB.mPosition.x + p.bodyA.mPosition.x) * p.mNormal.x +
      (p.mOffset.y - p.bodyB.mPosition.y + p.bodyA.mPosition.y) * p.mNormal.y)

/-- The result of `k` consecutive `solvePosition` calls. -/
def Pair.solvePositionIter (S : Settings) : ℕ → Pair → Option Pair
  | 0, p => some p
  | k + 1, p => (p.solvePosition S).bind (Pair.solvePositionIter S k)

/-- A pair in the state the position pass expects: unit normal, positive inverse-mass sum,
the effective mass that `preSolve` computes for it, a non-negative position impulse. -/
def Pair.PositionReady (p : Pair) : Prop :=
  p.UnitNormal ∧ 0 < p.bodyA.mInvMass + p.bodyB.mInvMass ∧
    p.mMass = some (1 / (p.bodyA.mInvMass + p.bodyB.mInvMass)) ∧ 0 ≤ p.mPositionImpulse

/-- Total linear momentum of the two bodies, `vA / invMassA + vB / invMassB`, by component. -/
def Pair.momentum (p : Pair) : Vector :=
  ⟨p.bodyA.mVelocity.x / p.bodyA.mInvMass + p.bodyB.mVelocity.x / p.bodyB.mInvMass,
    p.bodyA.mVelocity.y / p.bodyA.mInvMass + p.bodyB.mVelocity.y / p.bodyB.mInvMass⟩

/-- A prepared contact of a static body A (inverse mass 0) with a body B of inverse mass 1
above it that moves down and sideways; normal `(0, 1)`, overlap 1, friction 1/2. -/
def Sample.resting : Pair :=
  { Pair.new ⟨1⟩ ⟨2⟩ ⟨⟨0, 0⟩, ⟨0, 0⟩, 0, 1 / 2, 0⟩ ⟨⟨0, 1⟩, ⟨3, -4⟩, 1, 1 / 2, 0⟩ with
    mInCollision := true
    mNormal := ⟨0, 1⟩
    mOffset := ⟨0, 1⟩
    mOverlap := 1
    mNormalImpulse := 2
    mTangentImpulse := 1
    mFriction := 1 / 2
    mMass := some 1 }

/-- How a call ends when the division is read as a partial operation: it runs to its last
statement, or it stops at a division whose denominator is 0. Either way the pair is the one
the statements executed so far have written. -/
inductive Outcome where
  | done (pair : Pair)
  | divisionByZero (pair : Pair)
deriving DecidableEq

/-- The method `Pair.preSolve` with the division of line 127 read as a partial operation
that ends the call: the statements in source order. The offset, the two velocities and the
bias are written before the division; the combined friction and the reset of the position
impulse come after it. No statement before the division reads the inverse masses for
anything but the warm start. -/
def Pair.preSolveChecked (S : Settings) (p : Pair) : Outcome :=
  let normalX := p.mNormal.x
  let normalY := p.mNormal.y
  let tangentX := -normalY
  let tangentY := normalX
  let positionA := p.bodyA.mPosition
  let positionB := p.bodyB.mPosition
  let invMassA := p.bodyA.mInvMass
  let invMassB := p.bodyB.mInvMass
  let impulseX := p.mNormalImpulse * normalX + p.mTangentImpulse * tangentX
  let impulseY := p.mNormalImpulse * normalY + p.mTangentImpulse * tangentY
  let offset : Vector := ⟨positionB.x - positionA.x, positionB.y - positionA.y⟩
  let velocityA : Vector :=
    ⟨p.bodyA.mVelocity.x - impulseX * invMassA, p.bodyA.mVelocity.y - impulseY * invMassA⟩
  let velocityB : Vector :=
    ⟨p.bodyB.mVelocity.x + impulseX * invMassB, p.bodyB.mVelocity.y + impulseY * invMassB⟩
  let relVelX := velocityB.x - velocityA.x
  let relVelY := velocityB.y - velocityA.y
  let relVel := relVelX * normalX + relVelY * normalY
  let written : Pair :=
    { p with
      bodyA := { p.bodyA with mVelocity := velocityA }
      bodyB := { p.bodyB with mVelocity := velocityB }
      mOffset := offset
      mBias :=
        if relVel < -S.bounceTrashhold then (-(max p.bodyA.bounce p.bodyB.bounce)) * relVel
        else 0 }
  match MathEx.div 1 (invMassA + invMassB) with
  | none => .divisionByZero written
  | some mMass =>
      .done
        { written with
          mMass := some mMass
          mFriction := min p.bodyA.friction p.bodyB.friction
          mPositionImpulse := 0 }

/-! ## The invariant of the accumulated impulses -/

theorem Pair.nonNeg_new (a b : Collider) (bodyA bodyB : RigidBody) :
    (Pair.new a b bodyA bodyB).NonNeg := by
  simp [Pair.NonNeg, Pair.new]

theorem Pair.nonNeg_preSolve (S : Settings) (p : Pair) (h : p.NonNeg) :
    (p.preSolve S).NonNeg := by
  simpa [Pair.NonNeg, Pair.preSolve] using h.1

theorem Pair.nonNeg_solveVelocity (p q : Pair) (h : p.NonNeg) (hq : p.solveVelocity = some q) :
    q.NonNeg := by
  simp only [Pair.solveVelocity, Option.map_eq_some'] at hq
  obtain ⟨m, -, rfl⟩ := hq
  exact ⟨le_max_right _ _, h.2⟩

theorem Pair.nonNeg_solvePosition (S : Settings) (p q : Pair) (h : p.NonNeg)
    (hq : p.solvePosition S = some q) : q.NonNeg := by
  unfold Pair.solvePosition at hq
  simp only at hq
  split_ifs at hq with hc
  · cases hq; exact h
  · simp only [Option.map_eq_some'] at hq
    obtain ⟨m, -, rfl⟩ := hq
    exact ⟨h.1, le_max_right _ _⟩

theorem Op.nonNeg_apply (op : Op) (w w' : World) (h : w.pair.NonNeg) (hw : op.apply w = some w') :
    w'.pair.NonNeg := by
  cases op with
  | preSolve =>
    simp only [Op.apply, Option.some.injEq] at hw
    subst hw
    exact Pair.nonNeg_preSolve _ _ h
  | solveVelocity =>
    simp only [Op.apply, Option.map_eq_some'] at hw
    obtain ⟨q, hq, rfl⟩ := hw
    exact Pair.nonNeg_solveVelocity _ _ h hq
  | solvePosition =>
    simp only [Op.apply, Option.map_eq_some'] at hw
    obtain ⟨q, hq, rfl⟩ := hw
    exact Pair.nonNeg_solvePosition _ _ _ h hq
  | setBodies bodyA bodyB =>
    simp only [Op.apply, Option.some.injEq] at hw
    subst hw
    exact h
  | setContact c n o =>
    simp only [Op.apply, Option.some.injEq] at hw
    subst hw
    exact h
  | settings u b s =>
    simp only [Op.apply, Option.some.injEq] at hw
    subst hw
    exact h

theorem run_nonNeg (ops : List Op) : ∀ (w w' : World), w.pair.NonNeg → run ops w = some w' →
    w'.pair.NonNeg := by
  induction ops with
  | nil =>
    intro w w' h hw
    simp only [run, Option.some.injEq] at hw
    subst hw
    exact h
  | cons op ops ih =>
    intro w w' h hw
    simp only [run, Option.bind_eq_some] at hw
    obtain ⟨w1, h1, h2⟩ := hw
    exact ih w1 w' (Op.nonNeg_apply op w w1 h h1) h2

/-- C1. Starting from a freshly constructed pair, after every finite sequence of `preSolve`,
`solveVelocity` and `solvePosition` calls, interleaved with arbitrary writes to the bodies,
the contact normal, the overlap and the settings, the accumulated normal impulse and the
accumulated position impulse are not negative. -/
theorem C1_impulses_nonneg (S : Settings) (a b : Collider) (bodyA bodyB : RigidBody)
    (ops : List Op) (w : World)
    (h : run ops ⟨S, Pair.new a b bodyA bodyB⟩ = some w) :
    0 ≤ w.pair.mNormalImpulse ∧ 0 ≤ w.pair.mPositionImpulse :=
  run_nonNeg ops _ w (Pair.nonNeg_new a b bodyA bodyB) h

/-- The sample run of C1: one contact, one call of each pass. -/
theorem C1_impulses_nonneg_witness :
    run Sample.ops Sample.world0 = some Sample.world1 ∧
      (0 ≤ Sample.world1.pair.mNormalImpulse ∧ 0 ≤ Sample.world1.pair.mPositionImpulse) :=
  ⟨by decide!, C1_impulses_nonneg Settings.initial ⟨1⟩ ⟨2⟩ Sample.bodyA Sample.bodyB Sample.ops
    Sample.world1 (by decide!)⟩

/-! ## The friction cone -/

theorem MathEx.clamp_mem (value lo hi : ℚ) (h : lo ≤ hi) :
    lo ≤ MathEx.clamp value lo hi ∧ MathEx.clamp value lo hi ≤ hi := by
  unfold MathEx.clamp
  split_ifs with h1 h2
  · exact ⟨le_refl _, h⟩
  · exact ⟨h, le_refl _⟩
  · exact ⟨not_lt.mp h1, not_lt.mp h2⟩

theorem Pair.solveVelocity_eq (p : Pair) (m : ℚ) (hm : p.mMass = some m) :
    p.solveVelocity = some (p.solveVelocityWith m) := by
  simp [Pair.solveVelocity, hm]

theorem Pair.solveVelocityWith_mNormalImpulse_nonneg (m : ℚ) (p : Pair) :
    0 ≤ (p.solveVelocityWith m).mNormalImpulse :=
  le_max_right _ _

theorem Pair.solveVelocityWith_mFriction (m : ℚ) (p : Pair) :
    (p.solveVelocityWith m).mFriction = p.mFriction :=
  rfl

/-- C2. For a pair whose cached combined friction is not negative, one `solveVelocity` call
has a result, and in it the absolute value of the tangent impulse is at most the friction
times the normal impulse that the same call has just written. -/
theorem C2_friction_cone (p : Pair) (m : ℚ) (hm : p.mMass = some m) (hf : 0 ≤ p.mFriction) :
    ∃ q, p.solveVelocity = some q ∧ q.mFriction = p.mFriction ∧
      |q.mTangentImpulse| ≤ q.mFriction * q.mNormalImpulse := by
  refine ⟨p.solveVelocityWith m, Pair.solveVelocity_eq p m hm, rfl, ?_⟩
  have hN : 0 ≤ (p.solveVelocityWith m).mNormalImpulse :=
    Pair.solveVelocityWith_mNormalImpulse_nonneg m p
  have hM : 0 ≤ p.mFriction * (p.solveVelocityWith m).mNormalImpulse := mul_nonneg hf hN
  rw [Pair.solveVelocityWith_mFriction, abs_le]
  exact MathEx.clamp_mem _ _ _ (neg_le_self hM)

/-- A sample state for C2: friction 1/2, bodies sliding past each other. -/
theorem C2_friction_cone_witness :
    Sample.sliding.mMass = some (1 / 2) ∧ 0 ≤ Sample.sliding.mFriction ∧
      ∃ q, Sample.sliding.solveVelocity = some q ∧ q.mFriction = Sample.sliding.mFriction ∧
        |q.mTangentImpulse| ≤ q.mFriction * q.mNormalImpulse :=
  ⟨by decide!, by decide!, C2_friction_cone Sample.sliding (1 / 2) (by decide!) (by decide!)⟩

/-! ## The passes -/

theorem Pair.solveVelocityWith_mNormalImpulse (m : ℚ) (p : Pair) :
    (p.solveVelocityWith m).mNormalImpulse =
      max (p.mNormalImpulse + (-(p.relNormalVel - p.mBias)) * m) 0 :=
  rfl

theorem Pair.solveVelocityWith_mNormal (m : ℚ) (p : Pair) :
    (p.solveVelocityWith m).mNormal = p.mNormal :=
  rfl

theorem Pair.solveVelocityWith_normalVel_bodyA (m : ℚ) (p : Pair) :
    (p.solveVelocityWith m).normalVel (p.solveVelocityWith m).bodyA =
      p.normalVel p.bodyA -
        ((p.solveVelocityWith m).mNormalImpulse - p.mNormalImpulse) * p.bodyA.mInvMass *
          (p.mNormal.x * p.mNormal.x + p.mNormal.y * p.mNormal.y) := by
  simp only [Pair.solveVelocityWith, Pair.normalVel]
  ring

theorem Pair.solveVelocityWith_normalVel_bodyB (m : ℚ) (p : Pair) :
    (p.solveVelocityWith m).normalVel (p.solveVelocityWith m).bodyB =
      p.normalVel p.bodyB +
        ((p.solveVelocityWith m).mNormalImpulse - p.mNormalImpulse) * p.bodyB.mInvMass *
          (p.mNormal.x * p.mNormal.x + p.mNormal.y * p.mNormal.y) := by
  simp only [Pair.solveVelocityWith, Pair.normalVel]
  ring

theorem Pair.relNormalVel_eq (p : Pair) :
    p.relNormalVel = p.normalVel p.bodyB - p.normalVel p.bodyA := by
  simp only [Pair.relNormalVel, Pair.normalVel]
  ring

theorem Pair.solveVelocityWith_relNormalVel (m : ℚ) (p : Pair) :
    (p.solveVelocityWith m).relNormalVel =
      p.relNormalVel +
        ((p.solveVelocityWith m).mNormalImpulse - p.mNormalImpulse) *
          (p.bodyA.mInvMass + p.bodyB.mInvMass) *
          (p.mNormal.x * p.mNormal.x + p.mNormal.y * p.mNormal.y) := by
  rw [Pair.relNormalVel_eq, Pair.solveVelocityWith_normalVel_bodyA,
    Pair.solveVelocityWith_normalVel_bodyB, Pair.relNormalVel_eq]
  ring

theorem Pair.preSolve_mMass (S : Settings) (p : Pair) (h : p.bodyA.mInvMass + p.bodyB.mInvMass ≠ 0) :
    (p.preSolve S).mMass = some (1 / (p.bodyA.mInvMass + p.bodyB.mInvMass)) := by
  simp [Pair.preSolve, MathEx.div, h]

theorem Pair.preSolve_velocityA (S : Settings) (p : Pair) :
    (p.preSolve S).bodyA.mVelocity =
      ⟨p.bodyA.mVelocity.x - p.bodyA.mInvMass * p.cachedImpulse.x,
        p.bodyA.mVelocity.y - p.bodyA.mInvMass * p.cachedImpulse.y⟩ := by
  simp only [Pair.preSolve, Pair.cachedImpulse, Vector.mk.injEq]
  constructor <;> ring

theorem Pair.preSolve_velocityB (S : Settings) (p : Pair) :
    (p.preSolve S).bodyB.mVelocity =
      ⟨p.bodyB.mVelocity.x + p.bodyB.mInvMass * p.cachedImpulse.x,
        p.bodyB.mVelocity.y + p.bodyB.mInvMass * p.cachedImpulse.y⟩ := by
  simp only [Pair.preSolve, Pair.cachedImpulse, Vector.mk.injEq]
  constructor <;> ring

theorem Pair.preSolve_velocity_of_zero (S : Settings) (p : Pair) (hN : p.mNormalImpulse = 0)
    (hT : p.mTangentImpulse = 0) :
    (p.preSolve S).bodyA.mVelocity = p.bodyA.mVelocity ∧
      (p.preSolve S).bodyB.mVelocity = p.bodyB.mVelocity := by
  rw [Pair.preSolve_velocityA, Pair.preSolve_velocityB]
  simp [Pair.cachedImpulse, hN, hT]

/-- C7. `preSolve` subtracts the cached impulse times the inverse mass from the velocity of
body A and adds it to the velocity of body B, keeps the cached normal and tangent impulses,
stores the offset of the two positions and resets the position impulse; with zero cached
impulses both velocities are unchanged. -/
theorem C7_warm_start (S : Settings) (p : Pair) :
    (p.preSolve S).bodyA.mVelocity =
        ⟨p.bodyA.mVelocity.x - p.bodyA.mInvMass * p.cachedImpulse.x,
          p.bodyA.mVelocity.y - p.bodyA.mInvMass * p.cachedImpulse.y⟩ ∧
      (p.preSolve S).bodyB.mVelocity =
        ⟨p.bodyB.mVelocity.x + p.bodyB.mInvMass * p.cachedImpulse.x,
          p.bodyB.mVelocity.y + p.bodyB.mInvMass * p.cachedImpulse.y⟩ ∧
      (p.preSolve S).mNormalImpulse = p.mNormalImpulse ∧
      (p.preSolve S).mTangentImpulse = p.mTangentImpulse ∧
      (p.preSolve S).mOffset =
        ⟨p.bodyB.mPosition.x - p.bodyA.mPosition.x, p.bodyB.mPosition.y - p.bodyA.mPosition.y⟩ ∧
      (p.preSolve S).mPositionImpulse = 0 ∧
      (p.mNormalImpulse = 0 → p.mTangentImpulse = 0 →
        (p.preSolve S).bodyA.mVelocity = p.bodyA.mVelocity ∧
          (p.preSolve S).bodyB.mVelocity = p.bodyB.mVelocity) ∧
      (∀ (a b : Collider) (bodyA bodyB : RigidBody),
        ((Pair.new a b bodyA bodyB).preSolve S).bodyA.mVelocity = bodyA.mVelocity ∧
          ((Pair.new a b bodyA bodyB).preSolve S).bodyB.mVelocity = bodyB.mVelocity) :=
  ⟨Pair.preSolve_velocityA S p, Pair.preSolve_velocityB S p, rfl, rfl, rfl, rfl,
    Pair.preSolve_velocity_of_zero S p,
    fun a b bodyA bodyB => Pair.preSolve_velocity_of_zero S (Pair.new a b bodyA bodyB) rfl rfl⟩

theorem Pair.preSolve_mBias (S : Settings) (p : Pair) :
    (p.preSolve S).mBias =
      if (p.preSolve S).relNormalVel < -S.bounceTrashhold then
        (-(max p.bodyA.bounce p.bodyB.bounce)) * (p.preSolve S).relNormalVel
      else 0 :=
  rfl

/-- C6. After `preSolve`, with `r` the relative normal velocity of the velocities it has
written, the bias is 0 when `r >= -bounceTrashhold` and `-max(bounceA, bounceB) * r` when
`r < -bounceTrashhold`; `Pair.settings` stores its `unitsPerMeter` argument (1 when omitted)
as `bounceTrashhold`, and the value after the initial call is 1. -/
theorem C6_restitution_threshold (S : Settings) (p : Pair) :
    ((p.preSolve S).relNormalVel ≥ -S.bounceTrashhold → (p.preSolve S).mBias = 0) ∧
      ((p.preSolve S).relNormalVel < -S.bounceTrashhold →
        (p.preSolve S).mBias =
          -(max (p.preSolve S).bodyA.bounce (p.preSolve S).bodyB.bounce) * (p.preSolve S).relNormalVel) ∧
      (∀ (old : Settings) (u b s : Option ℚ),
        (Pair.settings old u b s).bounceTrashhold = u.getD 1) ∧
      Settings.initial.bounceTrashhold = 1 := by
  refine ⟨fun h => ?_, fun h => ?_, fun _ _ _ _ => rfl, rfl⟩
  · rw [Pair.preSolve_mBias, if_neg (not_lt.mpr h)]
  · rw [Pair.preSolve_mBias, if_pos h]
    rfl

theorem Pair.preSolve_relNormalVel_of_zero (S : Settings) (p : Pair) (hN : p.mNormalImpulse = 0)
    (hT : p.mTangentImpulse = 0) : (p.preSolve S).relNormalVel = p.relNormalVel := by
  obtain ⟨hA, hB⟩ := Pair.preSolve_velocity_of_zero S p hN hT
  simp only [Pair.relNormalVel, hA, hB]
  rfl

theorem Pair.preSolve_normalVel_of_zero (S : Settings) (p : Pair) (hN : p.mNormalImpulse = 0)
    (hT : p.mTangentImpulse = 0) :
    (p.preSolve S).normalVel (p.preSolve S).bodyA = p.normalVel p.bodyA ∧
      (p.preSolve S).normalVel (p.preSolve S).bodyB = p.normalVel p.bodyB := by
  obtain ⟨hA, hB⟩ := Pair.preSolve_velocity_of_zero S p hN hT
  simp only [Pair.normalVel, hA, hB]
  exact ⟨rfl, rfl⟩

/-- C4. A pair with zero cached impulses, the same positive inverse mass on both bodies,
bounce 0 on both, a unit normal and a non-positive relative normal velocity: `preSolve`
followed by one `solveVelocity` has a result in which both bodies have the same velocity
along the normal, the average of the two initial ones. -/
theorem C4_equal_mass_split (S : Settings) (p : Pair) (m : ℚ) (hm : 0 < m)
    (hA : p.bodyA.mInvMass = m) (hB : p.bodyB.mInvMass = m)
    (hbA : p.bodyA.bounce = 0) (hbB : p.bodyB.bounce = 0)
    (hN : p.mNormalImpulse = 0) (hT : p.mTangentImpulse = 0)
    (hn : p.UnitNormal) (hr : p.relNormalVel ≤ 0) :
    ∃ q, (p.preSolve S).solveVelocity = some q ∧
      q.normalVel q.bodyA = (p.normalVel p.bodyA + p.normalVel p.bodyB) / 2 ∧
      q.normalVel q.bodyB = (p.normalVel p.bodyA + p.normalVel p.bodyB) / 2 := by
  have hsum : p.bodyA.mInvMass + p.bodyB.mInvMass ≠ 0 := by rw [hA, hB]; positivity
  have hmass := Pair.preSolve_mMass S p hsum
  rw [hA, hB] at hmass
  refine ⟨(p.preSolve S).solveVelocityWith (1 / (m + m)), Pair.solveVelocity_eq _ _ hmass, ?_⟩
  have hbias : (p.preSolve S).mBias = 0 := by
    rw [Pair.preSolve_mBias, hbA, hbB]
    simp
  have hrel := Pair.preSolve_relNormalVel_of_zero S p hN hT
  obtain ⟨hvA, hvB⟩ := Pair.preSolve_normalVel_of_zero S p hN hT
  have hN' : (p.preSolve S).mNormalImpulse = 0 := hN
  have hnew : ((p.preSolve S).solveVelocityWith (1 / (m + m))).mNormalImpulse =
      -p.relNormalVel * (1 / (m + m)) := by
    rw [Pair.solveVelocityWith_mNormalImpulse, hbias, hrel, hN']
    have : 0 ≤ -p.relNormalVel * (1 / (m + m)) :=
      mul_nonneg (by linarith) (by positivity)
    rw [max_eq_left (by linarith)]
    ring
  have hunit : (p.preSolve S).mNormal.x * (p.preSolve S).mNormal.x +
      (p.preSolve S).mNormal.y * (p.preSolve S).mNormal.y = 1 := hn
  have hiA : (p.preSolve S).bodyA.mInvMass = m := hA
  have hiB : (p.preSolve S).bodyB.mInvMass = m := hB
  have hrel' := Pair.relNormalVel_eq p
  constructor
  · rw [Pair.solveVelocityWith_normalVel_bodyA, hnew, hunit, hvA, hN', hiA, hrel']
    field_simp
    ring
  · rw [Pair.solveVelocityWith_normalVel_bodyB, hnew, hunit, hvB, hN', hiB, hrel']
    field_simp
    ring


theorem Pair.solvePosition_after_preSolve (S : Settings) (p : Pair) (m : ℚ) (hm : 0 < m)
    (hmass : (p.preSolve S).mMass = some m)
    (hc : 0 < (p.mOverlap - S.slop) * S.baumgarte) :
    (p.preSolve S).solvePosition S = some
      { p.preSolve S with
        bodyA := { (p.preSolve S).bodyA with
          mPosition :=
            ⟨p.bodyA.mPosition.x - (p.mOverlap - S.slop) * S.baumgarte * m * p.mNormal.x * p.bodyA.mInvMass,
              p.bodyA.mPosition.y - (p.mOverlap - S.slop) * S.baumgarte * m * p.mNormal.y * p.bodyA.mInvMass⟩ }
        bodyB := { (p.preSolve S).bodyB with
          mPosition :=
            ⟨p.bodyB.mPosition.x + (p.mOverlap - S.slop) * S.baumgarte * m * p.mNormal.x * p.bodyB.mInvMass,
              p.bodyB.mPosition.y + (p.mOverlap - S.slop) * S.baumgarte * m * p.mNormal.y * p.bodyB.mInvMass⟩ }
        mPositionImpulse := (p.mOverlap - S.slop) * S.baumgarte * m } := by
  have hov : (p.preSolve S).mOverlap +
      (((p.preSolve S).mOffset.x - (p.preSolve S).bodyB.mPosition.x +
            (p.preSolve S).bodyA.mPosition.x) * (p.preSolve S).mNormal.x +
        ((p.preSolve S).mOffset.y - (p.preSolve S).bodyB.mPosition.y +
            (p.preSolve S).bodyA.mPosition.y) * (p.preSolve S).mNormal.y) = p.mOverlap := by
    simp only [Pair.preSolve]
    ring
  have hpos : 0 ≤ (p.mOverlap - S.slop) * S.baumgarte * m := le_of_lt (mul_pos hc hm)
  unfold Pair.solvePosition
  simp only [hov, not_le.mpr hc, if_false, hmass, Option.map_some']
  have h0 : (p.preSolve S).mPositionImpulse = 0 := rfl
  rw [h0, zero_add, max_eq_left hpos, sub_zero]
  rfl

/-- C5. With a unit normal, a positive inverse-mass sum, an overlap above the slop and a
positive Baumgarte coefficient, `solvePosition` called directly after `preSolve` has a
result in which body A has moved by `-c * invMassA / (invMassA + invMassB)` times the normal
and body B by `+c * invMassB / (invMassA + invMassB)` times the normal, where
`c = (mOverlap - slop) * baumgarte`; the separation along the normal has grown by `c`. -/
theorem C5_position_correction (S : Settings) (p : Pair) (hn : p.UnitNormal)
    (hsum : 0 < p.bodyA.mInvMass + p.bodyB.mInvMass)
    (ho : S.slop < p.mOverlap) (hb : 0 < S.baumgarte) :
    ∃ q, (p.preSolve S).solvePosition S = some q ∧
      q.bodyA.mPosition =
        ⟨p.bodyA.mPosition.x - (p.mOverlap - S.slop) * S.baumgarte *
            (p.bodyA.mInvMass / (p.bodyA.mInvMass + p.bodyB.mInvMass)) * p.mNormal.x,
          p.bodyA.mPosition.y - (p.mOverlap - S.slop) * S.baumgarte *
            (p.bodyA.mInvMass / (p.bodyA.mInvMass + p.bodyB.mInvMass)) * p.mNormal.y⟩ ∧
      q.bodyB.mPosition =
        ⟨p.bodyB.mPosition.x + (p.mOverlap - S.slop) * S.baumgarte *
            (p.bodyB.mInvMass / (p.bodyA.mInvMass + p.bodyB.mInvMass)) * p.mNormal.x,
          p.bodyB.mPosition.y + (p.mOverlap - S.slop) * S.baumgarte *
            (p.bodyB.mInvMass / (p.bodyA.mInvMass + p.bodyB.mInvMass)) * p.mNormal.y⟩ ∧
      q.separation = p.separation + (p.mOverlap - S.slop) * S.baumgarte := by
  have hne : p.bodyA.mInvMass + p.bodyB.mInvMass ≠ 0 := ne_of_gt hsum
  have hc : 0 < (p.mOverlap - S.slop) * S.baumgarte := mul_pos (by linarith) hb
  have hM : 0 < 1 / (p.bodyA.mInvMass + p.bodyB.mInvMass) := by positivity
  refine ⟨_, Pair.solvePosition_after_preSolve S p _ hM (Pair.preSolve_mMass S p hne) hc, ?_, ?_, ?_⟩
  · simp only [Vector.mk.injEq]
    constructor <;> (field_simp; ring)
  · simp only [Vector.mk.injEq]
    constructor <;> (field_simp; ring)
  · have hn' : p.mNormal.x * p.mNormal.x + p.mNormal.y * p.mNormal.y = 1 := hn
    have hone : 1 / (p.bodyA.mInvMass + p.bodyB.mInvMass) *
        (p.bodyA.mInvMass + p.bodyB.mInvMass) = 1 := one_div_mul_cancel hne
    simp only [Pair.separation, Pair.preSolve]
    linear_combination
      (p.mOverlap - S.slop) * S.baumgarte * (p.mNormal.x * p.mNormal.x + p.mNormal.y * p.mNormal.y) * hone +
      (p.mOverlap - S.slop) * S.baumgarte * hn'

theorem Pair.atRest_solveVelocity (p : Pair) (h : p.AtRest) :
    ∃ q, p.solveVelocity = some q ∧ q.AtRest ∧ q.mNormalImpulse = p.mNormalImpulse := by
  obtain ⟨hm, hb, hN, hr⟩ := h
  obtain ⟨m, hm⟩ := Option.isSome_iff_exists.mp hm
  have hnew : (p.solveVelocityWith m).mNormalImpulse = p.mNormalImpulse := by
    rw [Pair.solveVelocityWith_mNormalImpulse, hb, hr]
    simp [hN]
  refine ⟨p.solveVelocityWith m, Pair.solveVelocity_eq p m hm, ⟨?_, hb, ?_, ?_⟩, hnew⟩
  · show p.mMass.isSome = true
    rw [hm]; rfl
  · rw [hnew]; exact hN
  · rw [Pair.solveVelocityWith_relNormalVel, hnew, hr]
    ring

theorem Pair.atRest_solveVelocityIter (k : ℕ) : ∀ p : Pair, p.AtRest →
    ∃ q, p.solveVelocityIter k = some q ∧ q.AtRest ∧ q.mNormalImpulse = p.mNormalImpulse := by
  induction k with
  | zero => intro p h; exact ⟨p, rfl, h, rfl⟩
  | succ k ih =>
    intro p h
    obtain ⟨q, hq, hrest, hN⟩ := Pair.atRest_solveVelocity p h
    obtain ⟨q', hq', hrest', hN'⟩ := ih q hrest
    refine ⟨q', ?_, hrest', hN'.trans hN⟩
    simp [Pair.solveVelocityIter, hq, hq']

theorem Pair.atRest_of_closing (p : Pair) (hn : p.UnitNormal)
    (hsum : 0 < p.bodyA.mInvMass + p.bodyB.mInvMass)
    (hmass : p.mMass = some (1 / (p.bodyA.mInvMass + p.bodyB.mInvMass)))
    (hb : p.mBias = 0) (hN : 0 ≤ p.mNormalImpulse) (hr : p.relNormalVel ≤ 0) :
    ∃ q, p.solveVelocity = some q ∧ q.AtRest := by
  have hne : p.bodyA.mInvMass + p.bodyB.mInvMass ≠ 0 := ne_of_gt hsum
  have hM : 0 < 1 / (p.bodyA.mInvMass + p.bodyB.mInvMass) := by positivity
  have hnew : (p.solveVelocityWith (1 / (p.bodyA.mInvMass + p.bodyB.mInvMass))).mNormalImpulse =
      p.mNormalImpulse + -p.relNormalVel * (1 / (p.bodyA.mInvMass + p.bodyB.mInvMass)) := by
    rw [Pair.solveVelocityWith_mNormalImpulse, hb, sub_zero]
    have : 0 ≤ -p.relNormalVel * (1 / (p.bodyA.mInvMass + p.bodyB.mInvMass)) :=
      mul_nonneg (by linarith) (le_of_lt hM)
    exact max_eq_left (by linarith)
  refine ⟨_, Pair.solveVelocity_eq p _ hmass, ?_, hb, ?_, ?_⟩
  · show p.mMass.isSome = true
    rw [hmass]; rfl
  · exact Pair.solveVelocityWith_mNormalImpulse_nonneg _ p
  · have hn' : p.mNormal.x * p.mNormal.x + p.mNormal.y * p.mNormal.y = 1 := hn
    rw [Pair.solveVelocityWith_relNormalVel, hnew, hn']
    field_simp
    ring

/-- C8. A pair prepared by `preSolve` with a unit normal, a positive inverse-mass sum, no
bias, a non-negative normal impulse and a non-positive relative normal velocity: one
`solveVelocity` has a result with relative normal velocity 0, and every number of further
consecutive `solveVelocity` calls has a result with relative normal velocity 0 and the same
normal impulse. -/
theorem C8_rest_stability (S : Settings) (p : Pair) (hn : (p.preSolve S).UnitNormal)
    (hsum : 0 < (p.preSolve S).bodyA.mInvMass + (p.preSolve S).bodyB.mInvMass)
    (hb : (p.preSolve S).mBias = 0) (hN : 0 ≤ (p.preSolve S).mNormalImpulse)
    (hr : (p.preSolve S).relNormalVel ≤ 0) :
    ∃ q, (p.preSolve S).solveVelocity = some q ∧ q.relNormalVel = 0 ∧
      ∀ k : ℕ, ∃ r, q.solveVelocityIter k = some r ∧ r.relNormalVel = 0 ∧
        r.mNormalImpulse = q.mNormalImpulse := by
  have hmass := Pair.preSolve_mMass S p (ne_of_gt hsum)
  obtain ⟨q, hq, hrest⟩ := Pair.atRest_of_closing (p.preSolve S) hn hsum hmass hb hN hr
  refine ⟨q, hq, hrest.2.2.2, fun k => ?_⟩
  obtain ⟨r, hr1, hr2, hr3⟩ := Pair.atRest_solveVelocityIter k q hrest
  exact ⟨r, hr1, hr2.2.2.2, hr3⟩

/-- The scenario of C4: inverse masses 1, velocities `(10, 0)` and `(0, 0)`, normal `(1, 0)`,
friction 0, initial settings; both bodies end at `x` velocity 5. -/
theorem C4_equal_mass_split_witness :
    (∃ q, (Sample.contact.preSolve Settings.initial).solveVelocity = some q ∧
        q.normalVel q.bodyA =
          (Sample.contact.normalVel Sample.contact.bodyA +
            Sample.contact.normalVel Sample.contact.bodyB) / 2 ∧
        q.normalVel q.bodyB =
          (Sample.contact.normalVel Sample.contact.bodyA +
            Sample.contact.normalVel Sample.contact.bodyB) / 2) ∧
      ((Sample.contact.preSolve Settings.initial).solveVelocity.map fun q =>
        (q.bodyA.mVelocity.x, q.bodyB.mVelocity.x)) = some (5, 5) :=
  ⟨C4_equal_mass_split Settings.initial Sample.contact 1 (by decide!) (by decide!) (by decide!)
    (by decide!) (by decide!) (by decide!) (by decide!) (by decide!) (by decide!), by decide!⟩

/-- The scenario of C5: overlap 1, slop 1/2, Baumgarte 1/5; the separation grows by 1/10,
from 1 to 11/10. -/
theorem C5_position_correction_witness :
    (∃ q, (Sample.overlapping.preSolve Settings.initial).solvePosition Settings.initial = some q ∧
      q.bodyA.mPosition =
        ⟨Sample.overlapping.bodyA.mPosition.x -
            (Sample.overlapping.mOverlap - Settings.initial.slop) * Settings.initial.baumgarte *
              (Sample.overlapping.bodyA.mInvMass /
                (Sample.overlapping.bodyA.mInvMass + Sample.overlapping.bodyB.mInvMass)) *
              Sample.overlapping.mNormal.x,
          Sample.overlapping.bodyA.mPosition.y -
            (Sample.overlapping.mOverlap - Settings.initial.slop) * Settings.initial.baumgarte *
              (Sample.overlapping.bodyA.mInvMass /
                (Sample.overlapping.bodyA.mInvMass + Sample.overlapping.bodyB.mInvMass)) *
              Sample.overlapping.mNormal.y⟩ ∧
      q.bodyB.mPosition =
        ⟨Sample.overlapping.bodyB.mPosition.x +
            (Sample.overlapping.mOverlap - Settings.initial.slop) * Settings.initial.baumgarte *
              (Sample.overlapping.bodyB.mInvMass /
                (Sample.overlapping.bodyA.mInvMass + Sample.overlapping.bodyB.mInvMass)) *
              Sample.overlapping.mNormal.x,
          Sample.overlapping.bodyB.mPosition.y +
            (Sample.overlapping.mOverlap - Settings.initial.slop) * Settings.initial.baumgarte *
              (Sample.overlapping.bodyB.mInvMass /
                (Sample.overlapping.bodyA.mInvMass + Sample.overlapping.bodyB.mInvMass)) *
              Sample.overlapping.mNormal.y⟩ ∧
      q.separation = Sample.overlapping.separation +
        (Sample.overlapping.mOverlap - Settings.initial.slop) * Settings.initial.baumgarte) ∧
      (Sample.overlapping.mOverlap - Settings.initial.slop) * Settings.initial.baumgarte = 1 / 10 ∧
      Sample.overlapping.separation = 1 ∧
      ((Sample.overlapping.preSolve Settings.initial).solvePosition Settings.initial).map
        Pair.separation = some (11 / 10) :=
  ⟨C5_position_correction Settings.initial Sample.overlapping (by decide!) (by decide!)
    (by decide!) (by decide!), by decide!, by decide!, by decide!⟩

/-- The sample contact for C8: bounce 0 gives bias 0 although the bodies close at 10. -/
theorem C8_rest_stability_witness :
    (Sample.contact.preSolve Settings.initial).mBias = 0 ∧
      (Sample.contact.preSolve Settings.initial).relNormalVel = -10 ∧
      ∃ q, (Sample.contact.preSolve Settings.initial).solveVelocity = some q ∧
        q.relNormalVel = 0 ∧
        ∀ k : ℕ, ∃ r, q.solveVelocityIter k = some r ∧ r.relNormalVel = 0 ∧
          r.mNormalImpulse = q.mNormalImpulse :=
  ⟨by decide!, by decide!, C8_rest_stability Settings.initial Sample.contact (by decide!)
    (by decide!) (by decide!) (by decide!) (by decide!)⟩

theorem Pair.preSolveChecked_of_ne (S : Settings) (p : Pair)
    (h : p.bodyA.mInvMass + p.bodyB.mInvMass ≠ 0) :
    p.preSolveChecked S = .done (p.preSolve S) := by
  simp only [Pair.preSolveChecked, Pair.preSolve, MathEx.div, h, if_false]

theorem Pair.preSolveChecked_of_eq (S : Settings) (p : Pair)
    (h : p.bodyA.mInvMass + p.bodyB.mInvMass = 0) :
    p.preSolveChecked S = .divisionByZero
      { p.preSolve S with
        mMass := p.mMass
        mFriction := p.mFriction
        mPositionImpulse := p.mPositionImpulse } := by
  simp only [Pair.preSolveChecked, Pair.preSolve, MathEx.div, h, if_true]

theorem Pair.preSolve_mMass_eq_none_iff (S : Settings) (p : Pair) :
    (p.preSolve S).mMass = none ↔ p.bodyA.mInvMass + p.bodyB.mInvMass = 0 := by
  show MathEx.div 1 (p.bodyA.mInvMass + p.bodyB.mInvMass) = none ↔ _
  unfold MathEx.div
  split_ifs with h <;> simp [h]

/-- C9, counterexample. For two bodies of inverse mass 0, `preSolve` with the division read
as a partial operation does not run to its end: it stops at the division by zero, after it
has written the offset; it has not skipped the pair. Read with `1 / 0` as a value that is
not a number, it stores that value as the effective mass and returns a changed pair. -/
theorem C9_static_pair_divides_by_zero :
    Sample.static.bodyA.mInvMass = 0 ∧ Sample.static.bodyB.mInvMass = 0 ∧
      Sample.static.preSolveChecked Settings.initial =
        .divisionByZero { Sample.static with mOffset := ⟨1, 0⟩ } ∧
      Sample.static.preSolveChecked Settings.initial ≠ .done Sample.static ∧
      (Sample.static.preSolve Settings.initial).mMass = MathEx.div 1 0 ∧
      MathEx.div 1 0 = none ∧
      Sample.static.preSolve Settings.initial ≠ Sample.static := by
  decide!

/-- C9, amended. `preSolve` has no guard on the inverse-mass sum. With the division read as a
partial operation that ends the call, it stops at the division by zero exactly when
`invMassA + invMassB = 0`, and then the offset, the warm start of both velocities and the
bias have been written while the effective mass, the friction and the position impulse are
still the old ones; otherwise it runs to its end and the effective mass is the quotient.
With `1 / 0` read as a value that is not a number, every pair gets: both velocities changed
by the cached impulse times the inverse mass, the offset of the two positions, the bias of
the relative normal velocity after the warm start, the result of the division as effective
mass (not a number exactly when the sum is 0), the smaller friction and position impulse 0. -/
theorem C9_no_mass_guard (S : Settings) (p : Pair) :
    (p.bodyA.mInvMass + p.bodyB.mInvMass = 0 →
        p.preSolveChecked S = .divisionByZero
          { p.preSolve S with
            mMass := p.mMass
            mFriction := p.mFriction
            mPositionImpulse := p.mPositionImpulse }) ∧
      (p.bodyA.mInvMass + p.bodyB.mInvMass ≠ 0 →
        p.preSolveChecked S = .done (p.preSolve S) ∧
          (p.preSolve S).mMass = some (1 / (p.bodyA.mInvMass + p.bodyB.mInvMass))) ∧
      ((∃ q, p.preSolveChecked S = .divisionByZero q) ↔
        p.bodyA.mInvMass + p.bodyB.mInvMass = 0) ∧
      (p.preSolve S).bodyA.mVelocity =
        ⟨p.bodyA.mVelocity.x - p.bodyA.mInvMass * p.cachedImpulse.x,
          p.bodyA.mVelocity.y - p.bodyA.mInvMass * p.cachedImpulse.y⟩ ∧
      (p.preSolve S).bodyB.mVelocity =
        ⟨p.bodyB.mVelocity.x + p.bodyB.mInvMass * p.cachedImpulse.x,
          p.bodyB.mVelocity.y + p.bodyB.mInvMass * p.cachedImpulse.y⟩ ∧
      (p.preSolve S).mOffset =
        ⟨p.bodyB.mPosition.x - p.bodyA.mPosition.x, p.bodyB.mPosition.y - p.bodyA.mPosition.y⟩ ∧
      (p.preSolve S).mBias =
        (if (p.preSolve S).relNormalVel < -S.bounceTrashhold then
          (-(max p.bodyA.bounce p.bodyB.bounce)) * (p.preSolve S).relNormalVel
        else 0) ∧
      (p.preSolve S).mMass = MathEx.div 1 (p.bodyA.mInvMass + p.bodyB.mInvMass) ∧
      ((p.preSolve S).mMass = none ↔ p.bodyA.mInvMass + p.bodyB.mInvMass = 0) ∧
      (p.preSolve S).mFriction = min p.bodyA.friction p.bodyB.friction ∧
      (p.preSolve S).mPositionImpulse = 0 := by
  refine ⟨Pair.preSolveChecked_of_eq S p,
    fun h => ⟨Pair.preSolveChecked_of_ne S p h, Pair.preSolve_mMass S p h⟩, ?_,
    Pair.preSolve_velocityA S p, Pair.preSolve_velocityB S p, rfl, Pair.preSolve_mBias S p, rfl,
    Pair.preSolve_mMass_eq_none_iff S p, rfl, rfl⟩
  constructor
  · rintro ⟨q, hq⟩
    by_contra hne
    rw [Pair.preSolveChecked_of_ne S p hne] at hq
    cases hq
  · intro h
    exact ⟨_, Pair.preSolveChecked_of_eq S p h⟩

/-- C10, counterexample. A call with Baumgarte coefficient 2 and slop -1 stores both values
and changes the static fields. -/
theorem C10_out_of_range_stored :
    ¬ ((0 : ℚ) < 2 ∧ (2 : ℚ) ≤ 1) ∧ (-1 : ℚ) < 0 ∧
      Pair.settings Settings.initial (some 1) (some 2) (some (-1)) = ⟨-1, 2, 1, 1⟩ ∧
      Pair.settings Settings.initial (some 1) (some 2) (some (-1)) ≠ Settings.initial := by
  decide!

/-- C10, amended. `Pair.settings` validates nothing: every call stores the slop, the
Baumgarte coefficient and the units per meter it is given (1/2, 1/5 and 1 for omitted
arguments) and sets the bounce threshold to the units per meter, whatever the values and
whatever was stored before. -/
theorem C10_settings_stores_all (old : Settings) (u b s : Option ℚ) :
    Pair.settings old u b s = ⟨s.getD (1 / 2), b.getD (1 / 5), u.getD 1, u.getD 1⟩ := by
  simp only [Pair.settings]
  norm_num

/-! ## The position pass iterated -/

theorem Pair.solvePosition_of_pos (S : Settings) (p : Pair) (m : ℚ) (hmass : p.mMass = some m)
    (hm : 0 ≤ m) (hP : 0 ≤ p.mPositionImpulse)
    (hc : 0 < (p.overlapNow - S.slop) * S.baumgarte) :
    p.solvePosition S = some
      { p with
        bodyA := { p.bodyA with
          mPosition :=
            ⟨p.bodyA.mPosition.x -
                (p.overlapNow - S.slop) * S.baumgarte * m * p.mNormal.x * p.bodyA.mInvMass,
              p.bodyA.mPosition.y -
                (p.overlapNow - S.slop) * S.baumgarte * m * p.mNormal.y * p.bodyA.mInvMass⟩ }
        bodyB := { p.bodyB with
          mPosition :=
            ⟨p.bodyB.mPosition.x +
                (p.overlapNow - S.slop) * S.baumgarte * m * p.mNormal.x * p.bodyB.mInvMass,
              p.bodyB.mPosition.y +
                (p.overlapNow - S.slop) * S.baumgarte * m * p.mNormal.y * p.bodyB.mInvMass⟩ }
        mPositionImpulse := p.mPositionImpulse + (p.overlapNow - S.slop) * S.baumgarte * m } := by
  have hpos : 0 ≤ p.mPositionImpulse + (p.overlapNow - S.slop) * S.baumgarte * m :=
    add_nonneg hP (mul_nonneg (le_of_lt hc) hm)
  have hc' : ¬ (p.mOverlap +
      ((p.mOffset.x - p.bodyB.mPosition.x + p.bodyA.mPosition.x) * p.mNormal.x +
        (p.mOffset.y - p.bodyB.mPosition.y + p.bodyA.mPosition.y) * p.mNormal.y) - S.slop) *
        S.baumgarte ≤ 0 := not_le.mpr hc
  unfold Pair.solvePosition
  simp only [hc', if_false, hmass, Option.map_some']
  have hmax : max (p.mPositionImpulse + (p.overlapNow - S.slop) * S.baumgarte * m) 0 =
      p.mPositionImpulse + (p.overlapNow - S.slop) * S.baumgarte * m := max_eq_left hpos
  have hd : p.mPositionImpulse + (p.overlapNow - S.slop) * S.baumgarte * m - p.mPositionImpulse =
      (p.overlapNow - S.slop) * S.baumgarte * m := by ring
  show some _ = some _
  rw [show (p.mOverlap +
      ((p.mOffset.x - p.bodyB.mPosition.x + p.bodyA.mPosition.x) * p.mNormal.x +
        (p.mOffset.y - p.bodyB.mPosition.y + p.bodyA.mPosition.y) * p.mNormal.y)) = p.overlapNow
      from rfl, hmax, hd]

theorem Pair.solvePosition_step (S : Settings) (hb0 : 0 < S.baumgarte) (p : Pair)
    (h : p.PositionReady) (he : 0 ≤ p.overlapNow - S.slop) :
    ∃ q, p.solvePosition S = some q ∧ q.PositionReady ∧
      q.overlapNow - S.slop = (p.overlapNow - S.slop) * (1 - S.baumgarte) ∧
      q.separation + q.overlapNow = p.separation + p.overlapNow := by
  obtain ⟨hn, hsum, hmass, hP⟩ := h
  have hne : p.bodyA.mInvMass + p.bodyB.mInvMass ≠ 0 := ne_of_gt hsum
  have hM : 0 < 1 / (p.bodyA.mInvMass + p.bodyB.mInvMass) := by positivity
  have hone : 1 / (p.bodyA.mInvMass + p.bodyB.mInvMass) *
      (p.bodyA.mInvMass + p.bodyB.mInvMass) = 1 := one_div_mul_cancel hne
  have hn' : p.mNormal.x * p.mNormal.x + p.mNormal.y * p.mNormal.y = 1 := hn
  rcases eq_or_lt_of_le he with h0 | hpos
  · refine ⟨p, ?_, ⟨hn, hsum, hmass, hP⟩, ?_, rfl⟩
    · have hc : (p.overlapNow - S.slop) * S.baumgarte ≤ 0 := by rw [← h0]; simp
      unfold Pair.solvePosition
      simp only
      exact if_pos hc
    · rw [← h0]; ring
  · have hc : 0 < (p.overlapNow - S.slop) * S.baumgarte := mul_pos hpos hb0
    refine ⟨_, Pair.solvePosition_of_pos S p _ hmass (le_of_lt hM) hP hc, ⟨hn, hsum, hmass, ?_⟩,
      ?_, ?_⟩
    · exact add_nonneg hP (mul_nonneg (le_of_lt hc) (le_of_lt hM))
    · simp only [Pair.overlapNow]
      linear_combination
        (-(p.mOverlap +
            ((p.mOffset.x - p.bodyB.mPosition.x + p.bodyA.mPosition.x) * p.mNormal.x +
              (p.mOffset.y - p.bodyB.mPosition.y + p.bodyA.mPosition.y) * p.mNormal.y) - S.slop) * S.baumgarte *
          (p.mNormal.x * p.mNormal.x + p.mNormal.y * p.mNormal.y)) * hone -
        (p.mOverlap +
            ((p.mOffset.x - p.bodyB.mPosition.x + p.bodyA.mPosition.x) * p.mNormal.x +
              (p.mOffset.y - p.bodyB.mPosition.y + p.bodyA.mPosition.y) * p.mNormal.y) - S.slop) * S.baumgarte * hn'
    · simp only [Pair.overlapNow, Pair.separation]
      ring

theorem Pair.solvePositionIter_ready (S : Settings) (hb0 : 0 < S.baumgarte)
    (hb1 : S.baumgarte ≤ 1) (k : ℕ) : ∀ p : Pair, p.PositionReady → 0 ≤ p.overlapNow - S.slop →
    ∃ q, p.solvePositionIter S k = some q ∧ q.PositionReady ∧
      q.overlapNow - S.slop = (p.overlapNow - S.slop) * (1 - S.baumgarte) ^ k ∧
      q.separation + q.overlapNow = p.separation + p.overlapNow := by
  induction k with
  | zero =>
    intro p h _
    exact ⟨p, rfl, h, by simp, rfl⟩
  | succ k ih =>
    intro p h he
    obtain ⟨q, hq, hready, hov, hsep⟩ := Pair.solvePosition_step S hb0 p h he
    have he' : 0 ≤ q.overlapNow - S.slop := by
      rw [hov]
      exact mul_nonneg he (by linarith)
    obtain ⟨r, hr, hready', hov', hsep'⟩ := ih q hready he'
    refine ⟨r, ?_, hready', ?_, hsep'.trans hsep⟩
    · simp [Pair.solvePositionIter, hq, hr]
    · rw [hov', hov, pow_succ]
      ring

theorem Pair.preSolve_positionReady (S : Settings) (p : Pair) (hn : p.UnitNormal)
    (hsum : 0 < p.bodyA.mInvMass + p.bodyB.mInvMass) : (p.preSolve S).PositionReady :=
  ⟨hn, hsum, Pair.preSolve_mMass S p (ne_of_gt hsum), le_refl _⟩

theorem Pair.preSolve_overlapNow (S : Settings) (p : Pair) :
    (p.preSolve S).overlapNow = p.mOverlap := by
  simp only [Pair.overlapNow, Pair.preSolve]
  ring

theorem Pair.preSolve_separation (S : Settings) (p : Pair) :
    (p.preSolve S).separation = p.separation :=
  rfl

/-- C11. With a unit normal, a positive inverse-mass sum, a Baumgarte coefficient in
`(0, 1]` and an overlap above the slop, `preSolve` followed by `k` consecutive
`solvePosition` calls has a result; in it the overlap that `solvePosition` recomputes, minus
the slop, is `(mOverlap - slop) * (1 - baumgarte) ^ k`, which is not negative, and the
separation added since `preSolve` is what the overlap has lost, at most `mOverlap - slop`. -/
theorem C11_position_no_overshoot (S : Settings) (p : Pair) (k : ℕ) (hn : p.UnitNormal)
    (hsum : 0 < p.bodyA.mInvMass + p.bodyB.mInvMass)
    (hb0 : 0 < S.baumgarte) (hb1 : S.baumgarte ≤ 1) (ho : S.slop < p.mOverlap) :
    ∃ q, (p.preSolve S).solvePositionIter S k = some q ∧
      q.overlapNow - S.slop = (p.mOverlap - S.slop) * (1 - S.baumgarte) ^ k ∧
      0 ≤ q.overlapNow - S.slop ∧
      q.separation - p.separation = p.mOverlap - q.overlapNow ∧
      0 ≤ q.separation - p.separation ∧
      q.separation - p.separation ≤ p.mOverlap - S.slop := by
  have he : 0 ≤ (p.preSolve S).overlapNow - S.slop := by
    rw [Pair.preSolve_overlapNow]; linarith
  obtain ⟨q, hq, -, hov, hsep⟩ := Pair.solvePositionIter_ready S hb0 hb1 k (p.preSolve S)
    (Pair.preSolve_positionReady S p hn hsum) he
  rw [Pair.preSolve_overlapNow, Pair.preSolve_separation] at hsep
  rw [Pair.preSolve_overlapNow] at hov
  have hpow0 : 0 ≤ (1 - S.baumgarte) ^ k := pow_nonneg (by linarith) k
  have hpow1 : (1 - S.baumgarte) ^ k ≤ 1 := pow_le_one₀ (by linarith) (by linarith)
  have hnn : 0 ≤ q.overlapNow - S.slop := by
    rw [hov]; exact mul_nonneg (by linarith) hpow0
  have hle : q.overlapNow - S.slop ≤ p.mOverlap - S.slop := by
    rw [hov]
    have := mul_le_mul_of_nonneg_left hpow1 (show 0 ≤ p.mOverlap - S.slop by linarith)
    linarith
  refine ⟨q, hq, hov, hnn, by linarith, by linarith, by linarith⟩

/-- The scenario of C11 after two position passes: overlap 1, slop 1/2, Baumgarte 1/5; the
recomputed overlap is 41/50 and the separation 59/50. -/
theorem C11_position_no_overshoot_witness :
    (∃ q, (Sample.overlapping.preSolve Settings.initial).solvePositionIter Settings.initial 2 =
        some q ∧
      q.overlapNow - Settings.initial.slop =
        (Sample.overlapping.mOverlap - Settings.initial.slop) *
          (1 - Settings.initial.baumgarte) ^ 2 ∧
      0 ≤ q.overlapNow - Settings.initial.slop ∧
      q.separation - Sample.overlapping.separation = Sample.overlapping.mOverlap - q.overlapNow ∧
      0 ≤ q.separation - Sample.overlapping.separation ∧
      q.separation - Sample.overlapping.separation ≤
        Sample.overlapping.mOverlap - Settings.initial.slop) ∧
      (((Sample.overlapping.preSolve Settings.initial).solvePositionIter Settings.initial 2).map
        fun q => (q.overlapNow, q.separation)) = some (41 / 50, 59 / 50) :=
  ⟨C11_position_no_overshoot Settings.initial Sample.overlapping 2 (by decide!) (by decide!)
    (by decide!) (by decide!) (by decide!), by decide!⟩

/-! ## Momentum and static bodies -/

theorem Pair.momentum_preSolve (S : Settings) (p : Pair) (hA : p.bodyA.mInvMass ≠ 0)
    (hB : p.bodyB.mInvMass ≠ 0) : (p.preSolve S).momentum = p.momentum := by
  simp only [Pair.momentum, Pair.preSolve, Vector.mk.injEq]
  constructor <;> (field_simp; ring)

theorem Pair.momentum_solveVelocityWith (m : ℚ) (p : Pair) (hA : p.bodyA.mInvMass ≠ 0)
    (hB : p.bodyB.mInvMass ≠ 0) : (p.solveVelocityWith m).momentum = p.momentum := by
  simp only [Pair.momentum, Pair.solveVelocityWith, Vector.mk.injEq]
  constructor <;> (field_simp; ring)

theorem Pair.solveVelocity_some (p q : Pair) (h : p.solveVelocity = some q) :
    ∃ m, p.mMass = some m ∧ q = p.solveVelocityWith m := by
  simp only [Pair.solveVelocity, Option.map_eq_some'] at h
  obtain ⟨m, hm, rfl⟩ := h
  exact ⟨m, hm, rfl⟩

/-- C12. For two bodies of positive inverse mass, `preSolve` leaves the total linear momentum
`vA / invMassA + vB / invMassB` unchanged in both components, and so does `solveVelocity`:
it has a result whenever the effective mass is a number, every result has the momentum of
the state it started from, and so has the result of `preSolve` followed by `solveVelocity`. -/
theorem C12_momentum_conserved (S : Settings) (p : Pair) (hA : 0 < p.bodyA.mInvMass)
    (hB : 0 < p.bodyB.mInvMass) :
    (p.preSolve S).momentum = p.momentum ∧
      (∀ m, p.mMass = some m → ∃ q, p.solveVelocity = some q ∧ q.momentum = p.momentum) ∧
      (∀ q, p.solveVelocity = some q → q.momentum = p.momentum) ∧
      (∃ q, (p.preSolve S).solveVelocity = some q ∧ q.momentum = p.momentum) := by
  have hA' : p.bodyA.mInvMass ≠ 0 := ne_of_gt hA
  have hB' : p.bodyB.mInvMass ≠ 0 := ne_of_gt hB
  have hpre := Pair.momentum_preSolve S p hA' hB'
  refine ⟨hpre, fun m hm => ?_, fun q hq => ?_, ?_⟩
  · exact ⟨_, Pair.solveVelocity_eq p m hm, Pair.momentum_solveVelocityWith m p hA' hB'⟩
  · obtain ⟨m, -, rfl⟩ := Pair.solveVelocity_some p q hq
    exact Pair.momentum_solveVelocityWith m p hA' hB'
  · have hsum : p.bodyA.mInvMass + p.bodyB.mInvMass ≠ 0 := ne_of_gt (add_pos hA hB)
    refine ⟨_, Pair.solveVelocity_eq _ _ (Pair.preSolve_mMass S p hsum), ?_⟩
    exact (Pair.momentum_solveVelocityWith _ (p.preSolve S) hA' hB').trans hpre

theorem RigidBody.eq_of_fields (b c : RigidBody) (hp : b.mPosition.x = c.mPosition.x ∧
    b.mPosition.y = c.mPosition.y) (hv : b.mVelocity.x = c.mVelocity.x ∧
    b.mVelocity.y = c.mVelocity.y) (hm : b.mInvMass = c.mInvMass)
    (hf : b.friction = c.friction) (hb : b.bounce = c.bounce) : b = c := by
  obtain ⟨⟨px, py⟩, ⟨vx, vy⟩, im, fr, bo⟩ := b
  obtain ⟨⟨px', py'⟩, ⟨vx', vy'⟩, im', fr', bo'⟩ := c
  simp only at hp hv hm hf hb
  obtain ⟨rfl, rfl⟩ := hp
  obtain ⟨rfl, rfl⟩ := hv
  subst hm hf hb
  rfl

theorem Pair.preSolve_bodyA_of_static (S : Settings) (p : Pair) (h : p.bodyA.mInvMass = 0) :
    (p.preSolve S).bodyA = p.bodyA := by
  apply RigidBody.eq_of_fields <;> simp [Pair.preSolve, h]

theorem Pair.preSolve_bodyB_of_static (S : Settings) (p : Pair) (h : p.bodyB.mInvMass = 0) :
    (p.preSolve S).bodyB = p.bodyB := by
  apply RigidBody.eq_of_fields <;> simp [Pair.preSolve, h]

theorem Pair.solveVelocityWith_bodyA_of_static (m : ℚ) (p : Pair) (h : p.bodyA.mInvMass = 0) :
    (p.solveVelocityWith m).bodyA = p.bodyA := by
  apply RigidBody.eq_of_fields <;> simp [Pair.solveVelocityWith, h]

theorem Pair.solveVelocityWith_bodyB_of_static (m : ℚ) (p : Pair) (h : p.bodyB.mInvMass = 0) :
    (p.solveVelocityWith m).bodyB = p.bodyB := by
  apply RigidBody.eq_of_fields <;> simp [Pair.solveVelocityWith, h]

theorem Pair.solvePosition_frame (S : Settings) (p q : Pair) (hq : p.solvePosition S = some q) :
    (p.bodyA.mInvMass = 0 → q.bodyA = p.bodyA) ∧ (p.bodyB.mInvMass = 0 → q.bodyB = p.bodyB) ∧
      q.bodyA.mVelocity = p.bodyA.mVelocity ∧ q.bodyB.mVelocity = p.bodyB.mVelocity := by
  unfold Pair.solvePosition at hq
  simp only at hq
  split_ifs at hq with hc
  · cases hq
    exact ⟨fun _ => rfl, fun _ => rfl, rfl, rfl⟩
  · simp only [Option.map_eq_some'] at hq
    obtain ⟨m, -, rfl⟩ := hq
    refine ⟨fun h => ?_, fun h => ?_, rfl, rfl⟩
    · apply RigidBody.eq_of_fields <;> simp [h]
    · apply RigidBody.eq_of_fields <;> simp [h]

theorem Pair.solvePosition_isSome (S : Settings) (p : Pair) (m : ℚ) (hm : p.mMass = some m) :
    ∃ q, p.solvePosition S = some q := by
  unfold Pair.solvePosition
  simp only [hm, Option.map_some']
  split_ifs
  · exact ⟨_, rfl⟩
  · exact ⟨_, rfl⟩

/-- C13. When one body has inverse mass 0 and the other a positive one, `preSolve`,
`solveVelocity` and `solvePosition` return the body of inverse mass 0 as it was; moreover
`solveVelocity` changes no position and `solvePosition` no velocity of either body. The two
solving passes have a result whenever the effective mass is a number, which it is after
`preSolve`. -/
theorem C13_static_body_fixed (S : Settings) (p : Pair)
    (h : (p.bodyA.mInvMass = 0 ∧ 0 < p.bodyB.mInvMass) ∨
      (p.bodyB.mInvMass = 0 ∧ 0 < p.bodyA.mInvMass)) :
    ((p.bodyA.mInvMass = 0 → (p.preSolve S).bodyA = p.bodyA) ∧
        (p.bodyB.mInvMass = 0 → (p.preSolve S).bodyB = p.bodyB)) ∧
      (∀ m, p.mMass = some m → ∃ q, p.solveVelocity = some q ∧
        (p.bodyA.mInvMass = 0 → q.bodyA = p.bodyA) ∧
        (p.bodyB.mInvMass = 0 → q.bodyB = p.bodyB) ∧
        q.bodyA.mPosition = p.bodyA.mPosition ∧ q.bodyB.mPosition = p.bodyB.mPosition) ∧
      (∀ m, p.mMass = some m → ∃ q, p.solvePosition S = some q) ∧
      (∀ q, p.solvePosition S = some q →
        (p.bodyA.mInvMass = 0 → q.bodyA = p.bodyA) ∧
        (p.bodyB.mInvMass = 0 → q.bodyB = p.bodyB) ∧
        q.bodyA.mVelocity = p.bodyA.mVelocity ∧ q.bodyB.mVelocity = p.bodyB.mVelocity) ∧
      (p.preSolve S).mMass = some (1 / (p.bodyA.mInvMass + p.bodyB.mInvMass)) := by
  have hsum : p.bodyA.mInvMass + p.bodyB.mInvMass ≠ 0 := by
    rcases h with ⟨h0, hpos⟩ | ⟨h0, hpos⟩ <;> rw [h0] <;> simp <;> exact ne_of_gt hpos
  refine ⟨⟨Pair.preSolve_bodyA_of_static S p, Pair.preSolve_bodyB_of_static S p⟩,
    fun m hm => ?_, Pair.solvePosition_isSome S p, Pair.solvePosition_frame S p,
    Pair.preSolve_mMass S p hsum⟩
  exact ⟨_, Pair.solveVelocity_eq p m hm, Pair.solveVelocityWith_bodyA_of_static m p,
    Pair.solveVelocityWith_bodyB_of_static m p, rfl, rfl⟩

/-- The sliding sample for C12: momentum `(10, 8)` before and after. -/
theorem C12_momentum_conserved_witness :
    (0 < Sample.sliding.bodyA.mInvMass ∧ 0 < Sample.sliding.bodyB.mInvMass) ∧
      (Sample.sliding.preSolve Settings.initial).momentum = Sample.sliding.momentum ∧
      (∃ q, Sample.sliding.solveVelocity = some q ∧ q.momentum = Sample.sliding.momentum) ∧
      Sample.sliding.momentum = ⟨10, 8⟩ ∧
      (Sample.sliding.solveVelocity.map Pair.momentum) = some ⟨10, 8⟩ :=
  ⟨by decide!,
    (C12_momentum_conserved Settings.initial Sample.sliding (by decide!) (by decide!)).1,
    (C12_momentum_conserved Settings.initial Sample.sliding (by decide!) (by decide!)).2.1
      (1 / 2) (by decide!),
    by decide!, by decide!⟩

/-- The resting sample for C13: the static body A stays at the origin at rest, body B ends
with velocity `(1, 0)` after the velocity pass and at `(0, 11/10)` after the position pass. -/
theorem C13_static_body_fixed_witness :
    (Sample.resting.bodyA.mInvMass = 0 ∧ 0 < Sample.resting.bodyB.mInvMass) ∧
      (Sample.resting.preSolve Settings.initial).bodyA = Sample.resting.bodyA ∧
      (∃ q, Sample.resting.solveVelocity = some q ∧
        (Sample.resting.bodyA.mInvMass = 0 → q.bodyA = Sample.resting.bodyA) ∧
        (Sample.resting.bodyB.mInvMass = 0 → q.bodyB = Sample.resting.bodyB) ∧
        q.bodyA.mPosition = Sample.resting.bodyA.mPosition ∧
        q.bodyB.mPosition = Sample.resting.bodyB.mPosition) ∧
      (∃ q, Sample.resting.solvePosition Settings.initial = some q) ∧
      (Sample.resting.solveVelocity.map fun q => (q.bodyA.mVelocity, q.bodyB.mVelocity)) =
        some (⟨0, 0⟩, ⟨1, 0⟩) ∧
      ((Sample.resting.solvePosition Settings.initial).map fun q =>
        (q.bodyA.mPosition, q.bodyB.mPosition)) = some (⟨0, 0⟩, ⟨0, 11 / 10⟩) :=
  ⟨by decide!,
    (C13_static_body_fixed Settings.initial Sample.resting (Or.inl (by decide!))).1.1
      (by decide!),
    (C13_static_body_fixed Settings.initial Sample.resting (Or.inl (by decide!))).2.1 1
      (by decide!),
    (C13_static_body_fixed Settings.initial Sample.resting (Or.inl (by decide!))).2.2.1 1
      (by decide!),
    by decide!, by decide!⟩

/-! ## The pair identifier -/

theorem digitChar_val (d : ℕ) (h : d < 10) : (Nat.digitChar d).toNat - 48 = d := by
  interval_cases d <;> rfl

theorem digitChar_ne_amp (d : ℕ) (h : d < 10) : Nat.digitChar d ≠ '&' := by
  interval_cases d <;> decide

theorem toDigitsCore_eq (fuel : ℕ) : ∀ (n : ℕ) (ds : List Char), n < fuel →
    Nat.toDigitsCore 10 fuel n ds =
      (if n = 0 then ['0'] else (Nat.digits 10 n).reverse.map Nat.digitChar) ++ ds := by
  induction fuel with
  | zero => intro n ds h; omega
  | succ fuel ih =>
    intro n ds h
    rw [Nat.toDigitsCore]
    by_cases hq : n / 10 = 0
    · have hlt : n < 10 := by omega
      simp only [hq, if_true]
      by_cases hn : n = 0
      · subst hn; rfl
      · have hd : Nat.digits 10 n = [n] := Nat.digits_of_lt 10 n hn hlt
        simp [hn, hd, Nat.mod_eq_of_lt hlt]
    · have hn : n ≠ 0 := by rintro rfl; simp at hq
      have hpos : 0 < n := Nat.pos_of_ne_zero hn
      simp only [hq, if_false]
      rw [ih (n / 10) _ (by omega)]
      have hd : Nat.digits 10 n = (n % 10) :: Nat.digits 10 (n / 10) :=
        Nat.digits_def' (by norm_num) hpos
      simp [hq, hn, hd]

theorem toDigits_eq (n : ℕ) : Nat.toDigits 10 n =
    if n = 0 then ['0'] else (Nat.digits 10 n).reverse.map Nat.digitChar := by
  rw [Nat.toDigits, toDigitsCore_eq (n + 1) n [] (Nat.lt_succ_self n), List.append_nil]

theorem amp_not_mem_toDigits (n : ℕ) : '&' ∉ Nat.toDigits 10 n := by
  rw [toDigits_eq]
  split_ifs with hn
  · decide
  · intro hmem
    obtain ⟨d, hd, hc⟩ := List.mem_map.mp hmem
    exact digitChar_ne_amp d (Nat.digits_lt_base (by norm_num) (List.mem_reverse.mp hd)) hc

theorem ofDigits_toDigits (n : ℕ) :
    Nat.ofDigits 10 (((Nat.toDigits 10 n).map fun c => c.toNat - 48).reverse) = n := by
  rw [toDigits_eq]
  split_ifs with hn
  · subst hn; rfl
  · have hmap : ((Nat.digits 10 n).reverse.map Nat.digitChar).map (fun c => c.toNat - 48) =
        (Nat.digits 10 n).reverse := by
      rw [List.map_map]
      conv_rhs => rw [← List.map_id (Nat.digits 10 n).reverse]
      apply List.map_congr_left
      intro d hd
      exact digitChar_val d (Nat.digits_lt_base (by norm_num) (List.mem_reverse.mp hd))
    rw [hmap, List.reverse_reverse, Nat.ofDigits_digits]

theorem toDigits_injective {n m : ℕ} (h : Nat.toDigits 10 n = Nat.toDigits 10 m) : n = m := by
  rw [← ofDigits_toDigits n, ← ofDigits_toDigits m, h]

theorem numberToString_data (n : ℕ) : (numberToString n).data = Nat.toDigits 10 n := rfl

theorem id_data (a b : Collider) : (Pair.__id a b).data =
    Nat.toDigits 10 (max a.mId b.mId) ++ '&' :: Nat.toDigits 10 (min a.mId b.mId) := by
  unfold Pair.__id
  split_ifs with h
  · rw [max_eq_left (le_of_lt h), min_eq_right (le_of_lt h)]
    simp [String.data_append, numberToString_data]
  · have h' : a.mId ≤ b.mId := not_lt.mp h
    rw [max_eq_right h', min_eq_left h']
    simp [String.data_append, numberToString_data]

theorem id_eq_iff (a b c d : Collider) : Pair.__id a b = Pair.__id c d ↔
    max a.mId b.mId = max c.mId d.mId ∧ min a.mId b.mId = min c.mId d.mId := by
  rw [String.ext_iff, id_data, id_data,
    List.append_cons_inj_of_not_mem (amp_not_mem_toDigits _) (amp_not_mem_toDigits _)]
  constructor
  · rintro ⟨h1, -, h2⟩
    exact ⟨toDigits_injective h1, toDigits_injective h2⟩
  · rintro ⟨h1, h2⟩
    rw [h1, h2]
    exact ⟨rfl, rfl, rfl⟩

/-- C3. Two calls of `Pair.__id` give the same text exactly when the two unordered pairs of
collider identifiers are equal; the identifier does not depend on the order of the two
colliders, and it separates partners with different identifiers. -/
theorem C3_pair_id (a b c d : Collider) :
    (Pair.__id a b = Pair.__id c d ↔
        (a.mId = c.mId ∧ b.mId = d.mId) ∨ (a.mId = d.mId ∧ b.mId = c.mId)) ∧
      Pair.__id a b = Pair.__id b a ∧
      (b.mId ≠ c.mId → Pair.__id a b ≠ Pair.__id a c) := by
  refine ⟨?_, ?_, ?_⟩
  · rw [id_eq_iff]; omega
  · rw [id_eq_iff]; omega
  · intro h; rw [Ne, id_eq_iff]; omega

end Black
